import Mathlib

/-!
Verification development for the groceries-app backend (`src/backend/main.py`).

The backend keeps a single in-memory database with, per category
(`Groceries` / `Alcohol`), an active to-buy list of names and a catalog of
`{id, name}` entries, where `id` is derived from the name by taking the
first 5 hexadecimal characters of the MD5 digest of its UTF-8 bytes.
HTTP handlers (`add_item`, `delete_item`, `delete_meili_item`) mutate the
database and persist it as JSON.  We embed the data model, the identifier
deriver (with a full MD5 implementation), the three mutating handlers and
the JSON snapshot round trip, and prove the specification's claims about
them.  Handlers receive the percent-decoded path segment (`unquote` already
applied); the external Meilisearch index is an outside collaborator and is
not part of the in-memory state.
-/

/-- Modulus 2^32 for MD5 word arithmetic. -/
def M32 : Nat := 4294967296

/-- Bitwise complement on 32-bit words represented as `Nat < 2^32`. -/
def not32 (a : Nat) : Nat := 4294967295 - a

/-- Left rotation on 32-bit words (for `x < 2^32`, `0 < n < 32`). -/
def rotl32 (x n : Nat) : Nat := ((x <<< n) % M32) ||| (x >>> (32 - n))

/-- The 64 MD5 sine-derived constants `K[i] = floor(2^32 * |sin(i+1)|)`. -/
def md5K : List Nat :=
  [0xd76aa478, 0xe8c7b756, 0x242070db, 0xc1bdceee,
   0xf57c0faf, 0x4787c62a, 0xa8304613, 0xfd469501,
   0x698098d8, 0x8b44f7af, 0xffff5bb1, 0x895cd7be,
   0x6b901122, 0xfd987193, 0xa679438e, 0x49b40821,
   0xf61e2562, 0xc040b340, 0x265e5a51, 0xe9b6c7aa,
   0xd62f105d, 0x02441453, 0xd8a1e681, 0xe7d3fbc8,
   0x21e1cde6, 0xc33707d6, 0xf4d50d87, 0x455a14ed,
   0xa9e3e905, 0xfcefa3f8, 0x676f02d9, 0x8d2a4c8a,
   0xfffa3942, 0x8771f681, 0x6d9d6122, 0xfde5380c,
   0xa4beea44, 0x4bdecfa9, 0xf6bb4b60, 0xbebfbc70,
   0x289b7ec6, 0xeaa127fa, 0xd4ef3085, 0x04881d05,
   0xd9d4d039, 0xe6db99e5, 0x1fa27cf8, 0xc4ac5665,
   0xf4292244, 0x432aff97, 0xab9423a7, 0xfc93a039,
   0x655b59c3, 0x8f0ccc92, 0xffeff47d, 0x85845dd1,
   0x6fa87e4f, 0xfe2ce6e0, 0xa3014314, 0x4e0811a1,
   0xf7537e82, 0xbd3af235, 0x2ad7d2bb, 0xeb86d391]

/-- The 64 per-round MD5 left-rotation amounts. -/
def md5S : List Nat :=
  [7, 12, 17, 22, 7, 12, 17, 22, 7, 12, 17, 22, 7, 12, 17, 22,
   5, 9, 14, 20, 5, 9, 14, 20, 5, 9, 14, 20, 5, 9, 14, 20,
   4, 11, 16, 23, 4, 11, 16, 23, 4, 11, 16, 23, 4, 11, 16, 23,
   6, 10, 15, 21, 6, 10, 15, 21, 6, 10, 15, 21, 6, 10, 15, 21]

/-- One MD5 round: `m` gives the 16 message words of the current chunk. -/
def md5Round (m : Nat → Nat) (st : Nat × Nat × Nat × Nat) (i : Nat) :
    Nat × Nat × Nat × Nat :=
  let a := st.1
  let b := st.2.1
  let c := st.2.2.1
  let d := st.2.2.2
  let fg : Nat × Nat :=
    if i < 16 then ((b &&& c) ||| (not32 b &&& d), i)
    else if i < 32 then ((d &&& b) ||| (not32 d &&& c), (5 * i + 1) % 16)
    else if i < 48 then (b ^^^ c ^^^ d, (3 * i + 5) % 16)
    else (c ^^^ (b ||| not32 d), (7 * i) % 16)
  let f := (fg.1 + a + md5K.getD i 0 + m fg.2) % M32
  (d, (b + rotl32 f (md5S.getD i 0)) % M32, b, c)

/-- Little-endian 32-bit word `g` of a 64-byte chunk. -/
def md5Word (chunk : List Nat) (g : Nat) : Nat :=
  chunk.getD (4 * g) 0 + chunk.getD (4 * g + 1) 0 * 256 +
    chunk.getD (4 * g + 2) 0 * 65536 + chunk.getD (4 * g + 3) 0 * 16777216

/-- Process one 64-byte chunk, updating the running MD5 state. -/
def md5ProcessChunk (st : Nat × Nat × Nat × Nat) (chunk : List Nat) :
    Nat × Nat × Nat × Nat :=
  let r := (List.range 64).foldl (md5Round (md5Word chunk)) st
  ((st.1 + r.1) % M32, (st.2.1 + r.2.1) % M32,
   (st.2.2.1 + r.2.2.1) % M32, (st.2.2.2 + r.2.2.2) % M32)

/-- MD5 padding: append `0x80`, zeros to 56 mod 64, then the 64-bit
little-endian bit length. -/
def md5Pad (msg : List Nat) : List Nat :=
  let n := msg.length
  let padLen := (120 - (n + 1) % 64) % 64
  msg ++ [0x80] ++ List.replicate padLen 0 ++
    (List.range 8).map (fun i => ((n * 8) % 18446744073709551616) >>> (8 * i) % 256)

/-- Split a list into 64-byte chunks (structural recursion on a fuel bound
so that the kernel can evaluate it; `fuel ≥ l.length` suffices). -/
def md5ChunksAux : Nat → List Nat → List (List Nat)
  | 0, _ => []
  | fuel + 1, l => if l = [] then [] else l.take 64 :: md5ChunksAux fuel (l.drop 64)

/-- Split a list into 64-byte chunks. -/
def md5Chunks (l : List Nat) : List (List Nat) := md5ChunksAux l.length l

/-- Serialize a 32-bit word to 4 little-endian bytes. -/
def toLEBytes32 (w : Nat) : List Nat :=
  [w % 256, w / 256 % 256, w / 65536 % 256, w / 16777216 % 256]

/-- MD5 digest: 16 bytes, from a byte list. -/
def md5 (msg : List Nat) : List Nat :=
  let r := (md5Chunks (md5Pad msg)).foldl md5ProcessChunk
    (0x67452301, 0xefcdab89, 0x98badcfe, 0x10325476)
  toLEBytes32 r.1 ++ toLEBytes32 r.2.1 ++ toLEBytes32 r.2.2.1 ++ toLEBytes32 r.2.2.2

/-- UTF-8 encoding of a single character (as Python's `str.encode("utf-8")`). -/
def utf8Char (c : Char) : List Nat :=
  let n := c.toNat
  if n < 128 then [n]
  else if n < 2048 then [192 ||| (n >>> 6), 128 ||| (n &&& 63)]
  else if n < 65536 then
    [224 ||| (n >>> 12), 128 ||| ((n >>> 6) &&& 63), 128 ||| (n &&& 63)]
  else
    [240 ||| (n >>> 18), 128 ||| ((n >>> 12) &&& 63),
     128 ||| ((n >>> 6) &&& 63), 128 ||| (n &&& 63)]

/-- UTF-8 encoding of a string as a byte list. -/
def utf8Encode (s : String) : List Nat := (s.data.map utf8Char).flatten

/-- Lowercase hex character for a nibble (`hexdigest` uses lowercase). -/
def nibbleChar (n : Nat) : Char :=
  Char.ofNat (if n < 10 then 48 + n else 87 + n)

/-- The two hex characters of a byte, high nibble first. -/
def byteHexChars (b : Nat) : List Char := [nibbleChar (b / 16), nibbleChar (b % 16)]

/-- Hexadecimal digest string (as a character list) of a byte list. -/
def hexdigest (bytes : List Nat) : List Char := (bytes.map byteHexChars).flatten

/-- Numeric value of a hex character, as Python's `int(_, 16)` on lowercase. -/
def hexCharVal (c : Char) : Nat :=
  if c.toNat ≤ 57 then c.toNat - 48 else c.toNat - 87

/-- Parse a base-16 digit string (Python `int(cs, 16)`). -/
def intHex (cs : List Char) : Nat :=
  cs.foldl (fun acc c => acc * 16 + hexCharVal c) 0

/-- Function `get_id_from_name` from `main.py`:
`int(hashlib.md5(string.encode("utf-8")).hexdigest()[:5], 16)`. -/
def get_id_from_name (string : String) : Nat :=
  intHex ((hexdigest (md5 (utf8Encode string))).take 5)

/-- Categories: `Literal["Groceries", "Alcohol"]`, the fixed closed set. -/
inductive Category where
  | Groceries
  | Alcohol
deriving DecidableEq, Repr

/-- The other category, for frame conditions. -/
def Category.other : Category → Category
  | .Groceries => .Alcohol
  | .Alcohol => .Groceries

/-- Catalog entry: `class Item(TypedDict): name: str; id: int`. -/
structure Item where
  id : Nat
  name : String
deriving DecidableEq, Repr

/-- Active lists: `class Active(TypedDict)`, the two per-category name lists. -/
structure Active where
  Groceries : List String
  Alcohol : List String
deriving DecidableEq, Repr

/-- Database: `class Db(TypedDict)`, active lists plus per-category catalogs. -/
structure Db where
  active : Active
  Groceries : List Item
  Alcohol : List Item
deriving DecidableEq, Repr

/-- Read `db["active"][category]`. -/
def Db.activeOf (db : Db) : Category → List String
  | .Groceries => db.active.Groceries
  | .Alcohol => db.active.Alcohol

/-- Read `db[category]` (the catalog list). -/
def Db.catalogOf (db : Db) : Category → List Item
  | .Groceries => db.Groceries
  | .Alcohol => db.Alcohol

/-- Write `db["active"][category] = l`. -/
def Db.setActive (db : Db) (c : Category) (l : List String) : Db :=
  match c with
  | .Groceries => { db with active := { db.active with Groceries := l } }
  | .Alcohol => { db with active := { db.active with Alcohol := l } }

/-- Write `db[category] = l`. -/
def Db.setCatalog (db : Db) (c : Category) (l : List Item) : Db :=
  match c with
  | .Groceries => { db with Groceries := l }
  | .Alcohol => { db with Alcohol := l }

/-- The empty database created by `init_db`:
`{"active": {"Groceries": [], "Alcohol": []}, "Groceries": [], "Alcohol": []}`. -/
def init_db : Db := { active := { Groceries := [], Alcohol := [] }, Groceries := [], Alcohol := [] }

/-- Python `str.capitalize()` (ASCII fragment): first character uppercased,
the rest lowercased; no whitespace trimming. -/
def pyCapitalize (s : String) : String :=
  match s.data with
  | [] => ""
  | c :: cs => String.mk (c.toUpper :: cs.map Char.toLower)

/-- Handler `delete_item` for DELETE of `/api/{category}/{item_name}`: exact-match removal
of the first occurrence from the active list only; `save()` is persistence
I/O; returns `db["active"]`. `item_name` is already percent-decoded. -/
def delete_item (db : Db) (category : Category) (item_name : String) : Db × Active :=
  let db' :=
    if item_name ∈ db.activeOf category then
      db.setActive category ((db.activeOf category).erase item_name)
    else db
  (db', db'.active)

/-- Remove the first catalog entry whose `name` field equals `item_name`
(the `for item in db[category]: ... remove ... break` loop). -/
def eraseFirstByName : List Item → String → List Item
  | [], _ => []
  | i :: is, n => if i.name = n then is else i :: eraseFirstByName is n

/-- Handler `delete_meili_item` for DELETE of `/api/meili/{category}/{item_name}`: remove
the first name-matching entry from the catalog, tell Meilisearch (external,
not part of the in-memory state) to delete the document, then delegate to
`delete_item`. -/
def delete_meili_item (db : Db) (category : Category) (item_name : String) : Db × Active :=
  let db' := db.setCatalog category (eraseFirstByName (db.catalogOf category) item_name)
  delete_item db' category item_name

/-- Handler `add_item` for POST of `/api/{category}/{item_name}`: capitalize the name,
move-to-front insert into the active list, filter the catalog by name and
insert a fresh `{id, name}` entry at position 0; the Meilisearch upsert is
external and `save()` is persistence I/O; returns `db["active"]`. -/
def add_item (db : Db) (category : Category) (item_name0 : String) : Db × Active :=
  let item_name := pyCapitalize item_name0
  let act0 := db.activeOf category
  let act1 := if item_name ∈ act0 then act0.erase item_name else act0
  let db1 := db.setActive category (item_name :: act1)
  let cat1 := (db1.catalogOf category).filter (fun item => item.name ≠ item_name)
  let db2 := db1.setCatalog category
    ({ id := get_id_from_name item_name, name := item_name } :: cat1)
  (db2, db2.active)

/-- JSON values as written by `json.dump` / read by `json.load` (restricted
to the shapes the snapshot uses: strings, integers, arrays, objects with
insertion-ordered string keys). -/
inductive Json where
  | str (s : String)
  | num (n : Int)
  | arr (xs : List Json)
  | obj (fields : List (String × Json))

/-- Serialize a catalog entry: `{"id": ..., "name": ...}` (insertion order of
`add_item`'s dict literal). -/
def itemToJson (i : Item) : Json :=
  Json.obj [("id", Json.num (Int.ofNat i.id)), ("name", Json.str i.name)]

/-- Deserialize a catalog entry of the snapshot shape. -/
def itemFromJson : Json → Option Item
  | Json.obj [("id", Json.num (Int.ofNat n)), ("name", Json.str s)] =>
    some { id := n, name := s }
  | _ => none

/-- Deserialize each element of a JSON array, failing if any element fails. -/
def listFromJson (f : Json → Option α) : List Json → Option (List α)
  | [] => some []
  | x :: xs =>
    match f x, listFromJson f xs with
    | some a, some as => some (a :: as)
    | _, _ => none

/-- Deserialize a JSON string. -/
def strFromJson : Json → Option String
  | Json.str s => some s
  | _ => none

/-- Persistence `save()` from `main.py`: `json.dump(db, fp)` — the JSON value written to
the snapshot file (the byte-level encoding is the json library's concern). -/
def save (d : Db) : Json :=
  Json.obj
    [("active", Json.obj
      [("Groceries", Json.arr (d.active.Groceries.map Json.str)),
       ("Alcohol", Json.arr (d.active.Alcohol.map Json.str))]),
     ("Groceries", Json.arr (d.Groceries.map itemToJson)),
     ("Alcohol", Json.arr (d.Alcohol.map itemToJson))]

/-- Startup load, `db: Db = json.load(f)`: deserialize a snapshot of the
declared `Db` shape. -/
def load : Json → Option Db
  | Json.obj
      [("active", Json.obj
        [("Groceries", Json.arr ag), ("Alcohol", Json.arr aa)]),
       ("Groceries", Json.arr g), ("Alcohol", Json.arr a)] =>
    match listFromJson strFromJson ag, listFromJson strFromJson aa,
        listFromJson itemFromJson g, listFromJson itemFromJson a with
    | some ag', some aa', some g', some a' =>
      some { active := { Groceries := ag', Alcohol := aa' }, Groceries := g', Alcohol := a' }
    | _, _, _, _ => none
  | _ => none

/-- One HTTP mutation, for reasoning about reachable databases. -/
inductive Op where
  | add (c : Category) (name : String)
  | del (c : Category) (name : String)
  | delMeili (c : Category) (name : String)

/-- Apply one mutation to the in-memory database. -/
def applyOp (db : Db) : Op → Db
  | .add c n => (add_item db c n).1
  | .del c n => (delete_item db c n).1
  | .delMeili c n => (delete_meili_item db c n).1

/-- The database reached from the empty one by a sequence of mutations. -/
def runOps (ops : List Op) : Db := ops.foldl applyOp init_db

/-! ### Accessor lemmas for the database record -/

theorem activeOf_setActive_same (db : Db) (c : Category) (l : List String) :
    (db.setActive c l).activeOf c = l := by
  cases c <;> rfl

theorem activeOf_setActive_ne (db : Db) (c c' : Category) (l : List String)
    (h : c ≠ c') : (db.setActive c l).activeOf c' = db.activeOf c' := by
  cases c <;> cases c' <;> first | rfl | exact absurd rfl h

theorem activeOf_setCatalog (db : Db) (c c' : Category) (l : List Item) :
    (db.setCatalog c l).activeOf c' = db.activeOf c' := by
  cases c <;> cases c' <;> rfl

theorem catalogOf_setCatalog_same (db : Db) (c : Category) (l : List Item) :
    (db.setCatalog c l).catalogOf c = l := by
  cases c <;> rfl

theorem catalogOf_setCatalog_ne (db : Db) (c c' : Category) (l : List Item)
    (h : c ≠ c') : (db.setCatalog c l).catalogOf c' = db.catalogOf c' := by
  cases c <;> cases c' <;> first | rfl | exact absurd rfl h

theorem catalogOf_setActive (db : Db) (c c' : Category) (l : List String) :
    (db.setActive c l).catalogOf c' = db.catalogOf c' := by
  cases c <;> cases c' <;> rfl

theorem setActive_self (db : Db) (c : Category) :
    db.setActive c (db.activeOf c) = db := by
  cases db; cases c <;> rfl

theorem setCatalog_self (db : Db) (c : Category) :
    db.setCatalog c (db.catalogOf c) = db := by
  cases db; cases c <;> rfl

/-! ### The shape of the handlers' results -/

theorem add_item_active (db : Db) (c : Category) (s : String) :
    ((add_item db c s).1).activeOf c =
      pyCapitalize s ::
        (if pyCapitalize s ∈ db.activeOf c then
          (db.activeOf c).erase (pyCapitalize s)
        else db.activeOf c) := by
  simp only [add_item, activeOf_setCatalog, activeOf_setActive_same]

theorem add_item_active_ne (db : Db) (c c' : Category) (s : String) (h : c ≠ c') :
    ((add_item db c s).1).activeOf c' = db.activeOf c' := by
  simp only [add_item, activeOf_setCatalog, activeOf_setActive_ne db c c' _ h]

theorem add_item_catalog (db : Db) (c : Category) (s : String) :
    ((add_item db c s).1).catalogOf c =
      { id := get_id_from_name (pyCapitalize s), name := pyCapitalize s } ::
        (db.catalogOf c).filter (fun item => item.name ≠ pyCapitalize s) := by
  simp only [add_item, catalogOf_setCatalog_same, catalogOf_setActive]

theorem add_item_catalog_ne (db : Db) (c c' : Category) (s : String) (h : c ≠ c') :
    ((add_item db c s).1).catalogOf c' = db.catalogOf c' := by
  simp only [add_item, catalogOf_setCatalog_ne _ c c' _ h, catalogOf_setActive]

theorem delete_item_active (db : Db) (c : Category) (s : String) :
    ((delete_item db c s).1).activeOf c = (db.activeOf c).erase s := by
  by_cases h : s ∈ db.activeOf c
  · simp only [delete_item, if_pos h, activeOf_setActive_same]
  · simp only [delete_item, if_neg h, List.erase_of_not_mem h]

theorem delete_item_active_ne (db : Db) (c c' : Category) (s : String) (h : c ≠ c') :
    ((delete_item db c s).1).activeOf c' = db.activeOf c' := by
  by_cases hm : s ∈ db.activeOf c
  · simp only [delete_item, if_pos hm, activeOf_setActive_ne db c c' _ h]
  · simp only [delete_item, if_neg hm]

theorem delete_item_catalog (db : Db) (c c' : Category) (s : String) :
    ((delete_item db c s).1).catalogOf c' = db.catalogOf c' := by
  by_cases hm : s ∈ db.activeOf c
  · simp only [delete_item, if_pos hm, catalogOf_setActive]
  · simp only [delete_item, if_neg hm]

theorem delete_meili_item_active (db : Db) (c : Category) (s : String) :
    ((delete_meili_item db c s).1).activeOf c = (db.activeOf c).erase s := by
  simp only [delete_meili_item, delete_item_active, activeOf_setCatalog]

theorem delete_meili_item_active_ne (db : Db) (c c' : Category) (s : String)
    (h : c ≠ c') :
    ((delete_meili_item db c s).1).activeOf c' = db.activeOf c' := by
  simp only [delete_meili_item, delete_item_active_ne _ c c' _ h, activeOf_setCatalog]

theorem delete_meili_item_catalog (db : Db) (c : Category) (s : String) :
    ((delete_meili_item db c s).1).catalogOf c =
      eraseFirstByName (db.catalogOf c) s := by
  simp only [delete_meili_item, delete_item_catalog, catalogOf_setCatalog_same]

theorem delete_meili_item_catalog_ne (db : Db) (c c' : Category) (s : String)
    (h : c ≠ c') :
    ((delete_meili_item db c s).1).catalogOf c' = db.catalogOf c' := by
  simp only [delete_meili_item, delete_item_catalog, catalogOf_setCatalog_ne _ c c' _ h]

/-! ### No-duplicates invariants -/

theorem cons_erase_nodup (l : List String) (n : String) (h : l.Nodup) :
    (n :: (if n ∈ l then l.erase n else l)).Nodup := by
  by_cases hm : n ∈ l
  · rw [if_pos hm]
    exact List.Nodup.cons (h.not_mem_erase) (h.erase n)
  · rw [if_neg hm]
    exact List.Nodup.cons hm h

theorem eraseFirstByName_sublist (l : List Item) (n : String) :
    (eraseFirstByName l n).Sublist l := by
  induction l with
  | nil => simp [eraseFirstByName]
  | cons i is ih =>
    by_cases h : i.name = n
    · simp only [eraseFirstByName, if_pos h]
      exact (List.sublist_cons_self i is)
    · simp only [eraseFirstByName, if_neg h]
      exact ih.cons₂ i

theorem eraseFirstByName_of_not_mem (l : List Item) (n : String)
    (h : n ∉ l.map Item.name) : eraseFirstByName l n = l := by
  induction l with
  | nil => rfl
  | cons i is ih =>
    simp only [List.map_cons, List.mem_cons] at h
    push_neg at h
    simp only [eraseFirstByName, if_neg (Ne.symm h.1), ih h.2]

theorem applyOp_active_nodup (db : Db) (op : Op)
    (h : ∀ c, (db.activeOf c).Nodup) : ∀ c, ((applyOp db op).activeOf c).Nodup := by
  intro c
  cases op with
  | add c' n =>
    by_cases hc : c' = c
    · subst hc
      rw [applyOp, add_item_active]
      exact cons_erase_nodup _ _ (h _)
    · rw [applyOp, add_item_active_ne _ _ _ _ hc]
      exact h _
  | del c' n =>
    by_cases hc : c' = c
    · subst hc
      rw [applyOp, delete_item_active]
      exact (h _).erase n
    · rw [applyOp, delete_item_active_ne _ _ _ _ hc]
      exact h _
  | delMeili c' n =>
    by_cases hc : c' = c
    · subst hc
      rw [applyOp, delete_meili_item_active]
      exact (h _).erase n
    · rw [applyOp, delete_meili_item_active_ne _ _ _ _ hc]
      exact h _

theorem applyOp_catalog_names_nodup (db : Db) (op : Op)
    (h : ∀ c, ((db.catalogOf c).map Item.name).Nodup) :
    ∀ c, (((applyOp db op).catalogOf c).map Item.name).Nodup := by
  intro c
  cases op with
  | add c' n =>
    by_cases hc : c' = c
    · subst hc
      rw [applyOp, add_item_catalog]
      rw [List.map_cons]
      refine List.Nodup.cons ?_ ?_
      · intro hmem
        rcases List.mem_map.mp hmem with ⟨i, hi, hname⟩
        rcases List.mem_filter.mp hi with ⟨_, hne⟩
        have hni : i.name ≠ pyCapitalize n := by simpa using hne
        exact hni hname
      · exact ((h _).sublist (((db.catalogOf _).filter_sublist).map Item.name))
    · rw [applyOp, add_item_catalog_ne _ _ _ _ hc]
      exact h _
  | del c' n =>
    rw [applyOp, delete_item_catalog]
    exact h _
  | delMeili c' n =>
    by_cases hc : c' = c
    · subst hc
      rw [applyOp, delete_meili_item_catalog]
      exact (h _).sublist ((eraseFirstByName_sublist _ n).map Item.name)
    · rw [applyOp, delete_meili_item_catalog_ne _ _ _ _ hc]
      exact h _

theorem foldl_active_nodup (ops : List Op) (db : Db)
    (h : ∀ c, (db.activeOf c).Nodup) :
    ∀ c, ((ops.foldl applyOp db).activeOf c).Nodup := by
  induction ops generalizing db with
  | nil => exact h
  | cons op ops ih => exact ih _ (applyOp_active_nodup db op h)

theorem runOps_active_nodup (ops : List Op) :
    ∀ c, ((runOps ops).activeOf c).Nodup := by
  refine foldl_active_nodup ops init_db ?_
  intro c
  cases c <;> exact List.nodup_nil

theorem foldl_catalog_names_nodup (ops : List Op) (db : Db)
    (h : ∀ c, ((db.catalogOf c).map Item.name).Nodup) :
    ∀ c, (((ops.foldl applyOp db).catalogOf c).map Item.name).Nodup := by
  induction ops generalizing db with
  | nil => exact h
  | cons op ops ih => exact ih _ (applyOp_catalog_names_nodup db op h)

theorem runOps_catalog_names_nodup (ops : List Op) :
    ∀ c, (((runOps ops).catalogOf c).map Item.name).Nodup := by
  refine foldl_catalog_names_nodup ops init_db ?_
  intro c
  cases c <;> exact List.nodup_nil

theorem runOps_append_single (ops : List Op) (op : Op) :
    runOps (ops ++ [op]) = applyOp (runOps ops) op := by
  simp [runOps, List.foldl_append]

/-! ### Range of the derived identifier -/

theorem intHex_foldl_lt (cs : List Char) (acc : Nat)
    (h : ∀ c ∈ cs, hexCharVal c < 16) :
    cs.foldl (fun a c => a * 16 + hexCharVal c) acc < (acc + 1) * 16 ^ cs.length := by
  induction cs generalizing acc with
  | nil => simp
  | cons c cs ih =>
    have hc : hexCharVal c < 16 := h c (List.mem_cons_self c cs)
    have := ih (acc * 16 + hexCharVal c) (fun x hx => h x (List.mem_cons_of_mem c hx))
    calc (c :: cs).foldl (fun a c => a * 16 + hexCharVal c) acc
        = cs.foldl (fun a c => a * 16 + hexCharVal c) (acc * 16 + hexCharVal c) := rfl
      _ < (acc * 16 + hexCharVal c + 1) * 16 ^ cs.length := this
      _ ≤ (acc + 1) * 16 ^ (c :: cs).length := by
          rw [List.length_cons, pow_succ]
          have : acc * 16 + hexCharVal c + 1 ≤ (acc + 1) * 16 := by omega
          calc (acc * 16 + hexCharVal c + 1) * 16 ^ cs.length
              ≤ ((acc + 1) * 16) * 16 ^ cs.length :=
                Nat.mul_le_mul_right _ this
            _ = (acc + 1) * (16 ^ cs.length * 16) := by ring

theorem intHex_lt (cs : List Char) (h : ∀ c ∈ cs, hexCharVal c < 16) :
    intHex cs < 16 ^ cs.length := by
  simpa [intHex] using intHex_foldl_lt cs 0 h

theorem hexCharVal_nibbleChar (n : Nat) (h : n < 16) :
    hexCharVal (nibbleChar n) < 16 := by
  interval_cases n <;> decide

theorem toLEBytes32_lt (w : Nat) : ∀ b ∈ toLEBytes32 w, b < 256 := by
  intro b hb
  simp only [toLEBytes32, List.mem_cons, List.not_mem_nil, or_false] at hb
  rcases hb with rfl | rfl | rfl | rfl <;> omega

theorem md5_bytes_lt (msg : List Nat) : ∀ b ∈ md5 msg, b < 256 := by
  intro b hb
  simp only [md5, List.mem_append] at hb
  rcases hb with ((hb | hb) | hb) | hb <;> exact toLEBytes32_lt _ b hb

theorem hexdigest_vals_lt (bytes : List Nat) (hb : ∀ b ∈ bytes, b < 256) :
    ∀ c ∈ hexdigest bytes, hexCharVal c < 16 := by
  intro c hc
  simp only [hexdigest, List.mem_flatten, List.mem_map] at hc
  rcases hc with ⟨l, ⟨b, hbmem, rfl⟩, hcl⟩
  have hblt := hb b hbmem
  simp only [byteHexChars, List.mem_cons, List.not_mem_nil, or_false] at hcl
  rcases hcl with rfl | rfl
  · exact hexCharVal_nibbleChar _ (Nat.div_lt_of_lt_mul (by omega))
  · exact hexCharVal_nibbleChar _ (Nat.mod_lt _ (by omega))

theorem get_id_from_name_lt (s : String) : get_id_from_name s < 16 ^ 5 := by
  unfold get_id_from_name
  have hvals : ∀ c ∈ (hexdigest (md5 (utf8Encode s))).take 5, hexCharVal c < 16 :=
    fun c hc => hexdigest_vals_lt _ (md5_bytes_lt _) c (List.mem_of_mem_take hc)
  have hlen : ((hexdigest (md5 (utf8Encode s))).take 5).length ≤ 5 :=
    (List.length_take 5 _).le.trans (min_le_left _ _)
  calc intHex ((hexdigest (md5 (utf8Encode s))).take 5)
      < 16 ^ ((hexdigest (md5 (utf8Encode s))).take 5).length := intHex_lt _ hvals
    _ ≤ 16 ^ 5 := Nat.pow_le_pow_right (by omega) hlen

/-! ### The claims -/

set_option maxRecDepth 40000

/-- C1 counterexample: the claim is false as stated — after
`POST /api/Groceries/milk` then `DELETE /api/Groceries/milk`, the Groceries
active list is `["Milk"]`, not empty: `delete_item` removes by exact string
match and never canonicalizes, so deleting lowercase `"milk"` misses the
stored `"Milk"`. -/
theorem scenarioC_as_stated_fails :
    (delete_item (add_item init_db Category.Groceries "milk").1
        Category.Groceries "milk").1.active.Groceries = ["Milk"] ∧
    (delete_item (add_item init_db Category.Groceries "milk").1
        Category.Groceries "milk").1.active.Groceries ≠ [] := by
  constructor <;> decide

/-- C1 (amended): starting from the empty database, `POST /api/Groceries/milk`
followed by `DELETE /api/Groceries/Milk` (the display-exact, canonicalized
name) leaves the Groceries active list empty while the Groceries catalog
still contains an entry with name `"Milk"`. -/
theorem scenarioC_amended :
    (delete_item (add_item init_db Category.Groceries "milk").1
        Category.Groceries "Milk").1.active.Groceries = [] ∧
    (delete_item (add_item init_db Category.Groceries "milk").1
        Category.Groceries "Milk").1.Groceries.map Item.name = ["Milk"] := by
  constructor <;> decide

/-- C2 counterexample: the claim is false as stated — after
`POST /api/Groceries/milk` then `DELETE /api/meili/Groceries/milk`, the name
`"Milk"` is still in both the active list and the catalog: both removal
loops compare by exact string match against the stored `"Milk"`, so the
lowercase `"milk"` matches nothing. -/
theorem scenarioD_as_stated_fails :
    "Milk" ∈ (delete_meili_item (add_item init_db Category.Groceries "milk").1
        Category.Groceries "milk").1.active.Groceries ∧
    "Milk" ∈ ((delete_meili_item (add_item init_db Category.Groceries "milk").1
        Category.Groceries "milk").1.Groceries.map Item.name) := by
  constructor <;> decide

/-- C2 (amended): starting from the empty database, `POST /api/Groceries/milk`
followed by `DELETE /api/meili/Groceries/Milk` (the display-exact,
canonicalized name) leaves both the Groceries active list and the Groceries
catalog with no entry named `"Milk"` (both are empty). -/
theorem scenarioD_amended :
    (delete_meili_item (add_item init_db Category.Groceries "milk").1
        Category.Groceries "Milk").1.active.Groceries = [] ∧
    (delete_meili_item (add_item init_db Category.Groceries "milk").1
        Category.Groceries "Milk").1.Groceries = [] := by
  constructor <;> decide

/-- C3 counterexample: the claim is false as stated — `add_item` deduplicates
the catalog by the `name` field, not by `id`, so two distinct canonical names
whose derived ids collide (`"Xaaym"` and `"Xachp"` both derive id `100341`)
leave two catalog entries with the same `id`. -/
theorem catalog_id_not_unique :
    ((add_item (add_item init_db Category.Groceries "Xaaym").1
        Category.Groceries "Xachp").1.Groceries.map Item.id = [100341, 100341]) ∧
    ((add_item (add_item init_db Category.Groceries "Xaaym").1
        Category.Groceries "Xachp").1.Groceries.map Item.name = ["Xachp", "Xaaym"]) ∧
    ¬ ((add_item (add_item init_db Category.Groceries "Xaaym").1
        Category.Groceries "Xachp").1.Groceries.map Item.id).Nodup := by
  refine ⟨by decide, by decide, by decide⟩

/-- C3 (amended): for every reachable database state and every category, the
category's catalog contains at most one entry per name: after any sequence of
operations no two catalog entries share a `name` field, and an `add_item`
replaces the entry with the same canonicalized name and places the fresh
entry (with its derived id) at the front. Two distinct names whose derived
ids collide are treated as distinct entries and may share an id. -/
theorem catalog_name_unique (ops : List Op) :
    (∀ c, (((runOps ops).catalogOf c).map Item.name).Nodup) ∧
    (∀ c n, ((runOps (ops ++ [Op.add c n])).catalogOf c).head? =
      some { id := get_id_from_name (pyCapitalize n), name := pyCapitalize n }) := by
  refine ⟨runOps_catalog_names_nodup ops, ?_⟩
  intro c n
  rw [runOps_append_single]
  show ((add_item (runOps ops) c n).1.catalogOf c).head? = _
  rw [add_item_catalog]
  rfl

/-- C4 counterexample: the claim is false as stated — the add path applies
Python's `str.capitalize()` with no whitespace trimming, so the input
`" milk "` is stored as `" milk "`, not `"Milk"`. -/
theorem capitalize_does_not_trim :
    pyCapitalize " milk " = " milk " ∧
    (" milk " : String) ≠ "Milk" ∧
    (add_item init_db Category.Groceries " milk ").1.active.Groceries = [" milk "] := by
  refine ⟨rfl, by decide, by decide⟩

/-- C4 (amended): the canonicalization applied by the add path (used for both
the catalog upsert and the active-list add) uppercases the first character
and lowercases the rest, with no whitespace trimming; the canonicalized name
is what is stored at the front of both the active list and the catalog, and
an input with surrounding spaces such as `" milk "` is stored as `" milk "`. -/
theorem add_item_canonicalization (db : Db) (c : Category) (s : String) :
    ((add_item db c s).1.activeOf c).head? = some (pyCapitalize s) ∧
    (((add_item db c s).1.catalogOf c).map Item.name).head? = some (pyCapitalize s) ∧
    (∀ (ch : Char) (chs : List Char),
      pyCapitalize (String.mk (ch :: chs)) = String.mk (ch.toUpper :: chs.map Char.toLower)) ∧
    pyCapitalize " milk " = " milk " := by
  refine ⟨?_, ?_, fun ch chs => rfl, rfl⟩
  · rw [add_item_active]
    rfl
  · rw [add_item_catalog]
    rfl

/-- C5: adding the same name twice in a row to the same category — two
`add_item` calls whose arguments canonicalize to the same string, starting
from any reachable database — leaves the active list for that category with
exactly one occurrence of that canonicalized name, located at the front
(index 0): the second add is idempotent for membership and resets recency. -/
theorem add_item_idempotent (ops : List Op) (c : Category) (a b : String)
    (hab : pyCapitalize a = pyCapitalize b) :
    ((add_item (add_item (runOps ops) c a).1 c b).1.activeOf c).count (pyCapitalize a) = 1 ∧
    ((add_item (add_item (runOps ops) c a).1 c b).1.activeOf c).head? =
      some (pyCapitalize a) := by
  have hnd : ((add_item (runOps ops) c a).1.activeOf c).Nodup := by
    have h := runOps_active_nodup (ops ++ [Op.add c a]) c
    rwa [runOps_append_single] at h
  have h2 := add_item_active (add_item (runOps ops) c a).1 c b
  rw [← hab, add_item_active (runOps ops) c a] at h2
  rw [if_pos (List.mem_cons_self _ _), List.erase_cons_head] at h2
  rw [add_item_active (runOps ops) c a] at hnd
  rw [h2]
  have hm := (List.nodup_cons.mp hnd).1
  refine ⟨?_, rfl⟩
  rw [List.count_cons_self, List.count_eq_zero_of_not_mem hm]

/-- Witness for C5 at a concrete input: `"milk"` and `"MILK"` canonicalize to
the same string, and adding them in a row from the empty database leaves one
occurrence at the front. -/
theorem add_item_idempotent_witness :
    pyCapitalize "milk" = pyCapitalize "MILK" ∧
    (((add_item (add_item (runOps []) Category.Groceries "milk").1
        Category.Groceries "MILK").1.activeOf Category.Groceries).count
          (pyCapitalize "milk") = 1 ∧
     ((add_item (add_item (runOps []) Category.Groceries "milk").1
        Category.Groceries "MILK").1.activeOf Category.Groceries).head? =
          some (pyCapitalize "milk")) :=
  ⟨by decide, add_item_idempotent [] Category.Groceries "milk" "MILK" (by decide)⟩

/-- C6: `get_id_from_name` is a deterministic pure function — equal input
strings yield equal outputs — and it returns the base-16 value of the first
5 hexadecimal characters of the 128-bit MD5 digest of the string's UTF-8
bytes, so every output lies in `[0, 16^5)`, i.e. 0 to 1,048,575 inclusive. -/
theorem get_id_from_name_spec (s t : String) (h : s = t) :
    get_id_from_name s = get_id_from_name t ∧
    get_id_from_name s = intHex ((hexdigest (md5 (utf8Encode s))).take 5) ∧
    get_id_from_name s < 16 ^ 5 :=
  ⟨h ▸ rfl, rfl, get_id_from_name_lt s⟩

/-- Witness for C6 at the concrete input `"Milk"`. -/
theorem get_id_from_name_spec_witness :
    get_id_from_name "Milk" = get_id_from_name "Milk" ∧
    get_id_from_name "Milk" = intHex ((hexdigest (md5 (utf8Encode "Milk"))).take 5) ∧
    get_id_from_name "Milk" < 16 ^ 5 :=
  get_id_from_name_spec "Milk" "Milk" rfl

/-- Round trip of the string-list serialization used for active lists. -/
theorem listFromJson_str_roundtrip (l : List String) :
    listFromJson strFromJson (l.map Json.str) = some l := by
  induction l with
  | nil => rfl
  | cons x xs ih => simp [listFromJson, strFromJson, ih]

/-- Round trip of the catalog-entry serialization. -/
theorem listFromJson_item_roundtrip (l : List Item) :
    listFromJson itemFromJson (l.map itemToJson) = some l := by
  induction l with
  | nil => rfl
  | cons x xs ih =>
    have hx : itemFromJson (itemToJson x) = some x := by
      cases x
      rfl
    rw [List.map_cons, listFromJson, hx, ih]

/-- C7: for every database value of the declared shape — active lists of
strings plus per-category catalogs of `{id, name}` entries — serializing it
with `save` and then deserializing the snapshot yields a value deep-equal to
the original database. -/
theorem save_load_roundtrip (d : Db) : load (save d) = some d := by
  cases d with
  | mk active g a =>
    cases active with
    | mk ag aa =>
      simp [save, load, listFromJson_str_roundtrip, listFromJson_item_roundtrip]

/-- C8: `delete_item` mutates only the named category's active list — for
every starting state and input, the catalogs of both categories and the
active list of the other category are unchanged. -/
theorem delete_item_frame (db : Db) (c : Category) (n : String) :
    (delete_item db c n).1.catalogOf Category.Groceries = db.catalogOf Category.Groceries ∧
    (delete_item db c n).1.catalogOf Category.Alcohol = db.catalogOf Category.Alcohol ∧
    (delete_item db c n).1.activeOf c.other = db.activeOf c.other :=
  ⟨delete_item_catalog db c _ n, delete_item_catalog db c _ n,
   delete_item_active_ne db c c.other n (by cases c <;> decide)⟩

/-- C9: deleting an absent item is a normal no-op, never an error — for every
state and every name absent (by exact string equality) from the targeted
active list (and, for the meili variant, also from the catalog), both
`delete_item` and `delete_meili_item` leave the in-memory database unchanged
and return the current active lists. -/
theorem delete_absent_noop (db : Db) (c : Category) (n : String) :
    (n ∉ db.activeOf c → delete_item db c n = (db, db.active)) ∧
    (n ∉ db.activeOf c → n ∉ (db.catalogOf c).map Item.name →
      delete_meili_item db c n = (db, db.active)) := by
  constructor
  · intro h
    simp only [delete_item, if_neg h]
  · intro h hcat
    simp only [delete_meili_item, eraseFirstByName_of_not_mem _ _ hcat,
      setCatalog_self, delete_item, if_neg h]

/-- Witness for C9 at a concrete input: deleting `"Bread"` from the empty
database is a no-op for both handlers. -/
theorem delete_absent_noop_witness :
    delete_item init_db Category.Groceries "Bread" = (init_db, init_db.active) ∧
    delete_meili_item init_db Category.Groceries "Bread" = (init_db, init_db.active) :=
  ⟨(delete_absent_noop init_db Category.Groceries "Bread").1 (by decide),
   (delete_absent_noop init_db Category.Groceries "Bread").2 (by decide) (by decide)⟩

/-- C10: starting from the empty database, after any sequence of `add_item`,
`delete_item` and `delete_meili_item` operations each category's active list
contains no duplicate names, and the list is ordered most-recently-added
first: an `add_item` always leaves its canonicalized name at the head. -/
theorem active_lists_nodup (ops : List Op) :
    (∀ c, ((runOps ops).activeOf c).Nodup) ∧
    (∀ c n, ((runOps (ops ++ [Op.add c n])).activeOf c).head? =
      some (pyCapitalize n)) := by
  refine ⟨runOps_active_nodup ops, ?_⟩
  intro c n
  rw [runOps_append_single]
  show ((add_item (runOps ops) c n).1.activeOf c).head? = _
  rw [add_item_active]
  rfl

-- Validation of the MD5 embedding against the RFC 1321 test vectors.
example : String.mk (hexdigest (md5 (utf8Encode ""))) =
    "d41d8cd98f00b204e9800998ecf8427e" := by decide

example : String.mk (hexdigest (md5 (utf8Encode "abc"))) =
    "900150983cd24fb0d6963f7d28e17f72" := by decide
